import Mathlib

/-!
Verification development for the evaluation-results extraction and
submission tool (src/main.py and src/utils/hf_utils.py).

The Python code is shallowly embedded: every definition below is a direct
translation of a function (or an inline expression) of the source, with
the remote Hugging Face hub, the local file system and the YAML library
modelled as explicit environments / value-level data.  Remote and file
operations that can raise in Python are modelled as `Except String`
values supplied by the environment; `try/except` blocks of the source
become explicit `match`es on those values at exactly the places the
source catches.

Conventions used throughout:
* Python strings are Lean `String`s; `str.lower()` / `str.upper()` are
  modelled character-wise by `Char.toLower` / `Char.toUpper`.
* YAML documents are modelled at the value level by the `Yaml` type;
  `yaml.dump` / `yaml.safe_load` (the external PyYAML library) are taken
  to be inverse on this value level, so writing a file stores the `Yaml`
  value and parsing it back yields the same value.  Non-ASCII characters
  are therefore preserved verbatim (strings are held as-is inside
  `Yaml.str`).
* Evaluation-result records (schema-shaped Python dicts) are the
  `Record` structure, with every field optional, mirroring `dict.get`
  access in the source.
-/

/-- Value-level model of a YAML document (the subset produced by
`yaml.safe_load` that the source manipulates). -/
inductive Yaml where
  | null
  | str (s : String)
  | num (q : Rat)
  | seq (xs : List Yaml)
  | map (kvs : List (String × Yaml))

/-- The `dataset` sub-object of an evaluation-result record
(`{"id": ..., "task_id": ...}`), all keys optional as in a raw dict. -/
structure RDataset where
  id : Option String
  task_id : Option String
deriving DecidableEq, Repr

/-- The `source` sub-object of an evaluation-result record
(`{"url": ..., "name": ...}`). -/
structure RSource where
  url : Option String
  name : Option String
deriving DecidableEq, Repr

/-- One evaluation-result record, i.e. one element of the
`evaluation_results` list: keys `dataset`, `value`, `source` in declared
order, each possibly absent.  The numeric metric is modelled as `Rat`. -/
structure Record where
  dataset : Option RDataset
  value : Option Rat
  source : Option RSource
deriving DecidableEq, Repr

/-- Python expression `result.get("dataset", \x7b\x7d).get("id")`, used by both
the index builder and the submitter: `none` when either key is absent. -/
def get_dataset_id (r : Record) : Option String :=
  match r.dataset with
  | some d => d.id
  | none => none

/-- YAML encoding of the `dataset` dict: keys `id`, `task_id` in declared
order, absent fields omitted (as `yaml.dump` of the dict omits them). -/
def encodeDataset (d : RDataset) : Yaml :=
  Yaml.map
    ((match d.id with
      | some s => [(("id" : String), Yaml.str s)]
      | none => []) ++
     (match d.task_id with
      | some s => [(("task_id" : String), Yaml.str s)]
      | none => []))

/-- YAML encoding of the `source` dict: keys `url`, `name` in declared
order, absent fields omitted. -/
def encodeSource (s : RSource) : Yaml :=
  Yaml.map
    ((match s.url with
      | some u => [(("url" : String), Yaml.str u)]
      | none => []) ++
     (match s.name with
      | some n => [(("name" : String), Yaml.str n)]
      | none => []))

/-- YAML encoding of one record as a mapping with keys `dataset`,
`value`, `source` in declared order (`yaml.dump(..., sort_keys=False)`
keeps this order), absent fields omitted. -/
def encodeRecord (r : Record) : Yaml :=
  Yaml.map
    ((match r.dataset with
      | some d => [(("dataset" : String), encodeDataset d)]
      | none => []) ++
     (match r.value with
      | some v => [(("value" : String), Yaml.num v)]
      | none => []) ++
     (match r.source with
      | some s => [(("source" : String), encodeSource s)]
      | none => []))

/-- The artifact content written by both writers:
`yaml.dump([result], default_flow_style=False, allow_unicode=True,
sort_keys=False)` — a one-element sequence holding the record. -/
def yamlDumpArtifact (r : Record) : Yaml :=
  Yaml.seq [encodeRecord r]

/-- First-match key lookup in a YAML mapping (Python dict lookup). -/
def yLookup (kvs : List (String × Yaml)) (k : String) : Option Yaml :=
  match kvs with
  | [] => none
  | (k2, v) :: rest => if k2 = k then some v else yLookup rest k

/-- Keys of a YAML mapping, in order; `[]` for non-mappings. -/
def yamlKeys (y : Yaml) : List String :=
  match y with
  | Yaml.map kvs => kvs.map Prod.fst
  | _ => []

/-- Decode the `dataset` sub-object back from YAML (schema-shaped
extraction: string-valued keys `id` and `task_id`). -/
def decodeDataset (y : Yaml) : Option RDataset :=
  match y with
  | Yaml.map kvs =>
    some
      { id := match yLookup kvs ("id") with
              | some (Yaml.str s) => some s
              | _ => none,
        task_id := match yLookup kvs ("task_id") with
                   | some (Yaml.str s) => some s
                   | _ => none }
  | _ => none

/-- Decode the `source` sub-object back from YAML. -/
def decodeSource (y : Yaml) : Option RSource :=
  match y with
  | Yaml.map kvs =>
    some
      { url := match yLookup kvs ("url") with
               | some (Yaml.str s) => some s
               | _ => none,
        name := match yLookup kvs ("name") with
                | some (Yaml.str s) => some s
                | _ => none }
  | _ => none

/-- Decode one record back from YAML by field values. -/
def decodeRecord (y : Yaml) : Option Record :=
  match y with
  | Yaml.map kvs =>
    some
      { dataset := match yLookup kvs ("dataset") with
                   | some d => decodeDataset d
                   | none => none,
        value := match yLookup kvs ("value") with
                 | some (Yaml.num q) => some q
                 | _ => none,
        source := match yLookup kvs ("source") with
                  | some s => decodeSource s
                  | none => none }
  | _ => none

/-- Parse a written artifact file back: a YAML sequence of records. -/
def decodeArtifact (y : Yaml) : Option (List Record) :=
  match y with
  | Yaml.seq xs => xs.mapM decodeRecord
  | _ => none

/-! ## Filename stem (artifact naming convention)

Both writers compute the artifact filename stem by the inline Python
expression `dataset_id.split("/")[-1].lower()` — `src/utils/hf_utils.py`
line 256 and `src/main.py` line 127. -/

/-- Python `str.split(sep)` for a one-character separator, on the
character list of the string: splits at every occurrence, keeping empty
segments; never returns an empty list. -/
def splitOnChar (sep : Char) : List Char → List (List Char)
  | [] => [[]]
  | c :: cs =>
    match splitOnChar sep cs with
    | [] => [[]]
    | h :: t => if c = sep then [] :: h :: t else (c :: h) :: t

/-- Stem computation of the staging writer (`hf_utils.py` line 256):
`dataset_id.split("/")[-1].lower()`. -/
def dataset_name_hf (dataset_id : String) : String :=
  String.mk (((splitOnChar '/' dataset_id.data).getLastD []).map Char.toLower)

/-- Stem computation of the local writer (`main.py` line 127):
`dataset_id.split("/")[-1].lower()`. -/
def dataset_name_main (dataset_id : String) : String :=
  String.mk (((splitOnChar '/' dataset_id.data).getLastD []).map Char.toLower)

/-- The spec formula for the stem: the substring of `dataset.id` after
the last `/` separator (the whole string when no separator occurs),
lowercased. -/
def suffixAfterLastSep (sep : Char) : List Char → List Char
  | [] => []
  | c :: cs =>
    if sep ∈ cs then suffixAfterLastSep sep cs
    else if c = sep then cs else c :: cs

/-- Stem as the spec words it: substring after the last `/`, lowercased. -/
def specStem (dataset_id : String) : String :=
  String.mk ((suffixAfterLastSep '/' dataset_id.data).map Char.toLower)

theorem splitOnChar_ne_nil (sep : Char) (l : List Char) :
    splitOnChar sep l ≠ [] := by
  cases l with
  | nil => simp [splitOnChar]
  | cons c cs =>
    simp only [splitOnChar]
    cases h : splitOnChar sep cs with
    | nil => simp
    | cons h2 t => by_cases hc : c = sep <;> simp [hc]

theorem splitOnChar_singleton (sep : Char) (cs : List Char) (h : List Char)
    (hs : splitOnChar sep cs = [h]) : h = cs ∧ sep ∉ cs := by
  induction cs generalizing h with
  | nil =>
    simp only [splitOnChar, List.cons.injEq, and_true] at hs
    exact ⟨hs.symm, by simp⟩
  | cons c cs ih =>
    simp only [splitOnChar] at hs
    cases hsp : splitOnChar sep cs with
    | nil => exact absurd hsp (splitOnChar_ne_nil sep cs)
    | cons h2 t =>
      rw [hsp] at hs
      by_cases hc : c = sep
      · simp [hc] at hs
      · simp only [if_neg hc, List.cons.injEq] at hs
        obtain ⟨rfl, rfl⟩ := hs
        obtain ⟨rfl, hnc⟩ := ih h2 hsp
        refine ⟨rfl, ?_⟩
        simp only [List.mem_cons, not_or]
        exact ⟨fun hh => hc hh.symm, hnc⟩

theorem mem_of_splitOnChar_long (sep : Char) (cs : List Char)
    (h : List Char) (t : List (List Char))
    (hs : splitOnChar sep cs = h :: t) (ht : t ≠ []) : sep ∈ cs := by
  induction cs generalizing h t with
  | nil =>
    simp only [splitOnChar, List.cons.injEq] at hs
    exact absurd hs.2.symm ht
  | cons c cs ih =>
    simp only [splitOnChar] at hs
    cases hsp : splitOnChar sep cs with
    | nil => exact absurd hsp (splitOnChar_ne_nil sep cs)
    | cons h2 t2 =>
      rw [hsp] at hs
      by_cases hc : c = sep
      · simp [hc]
      · simp only [if_neg hc, List.cons.injEq] at hs
        obtain ⟨rfl, rfl⟩ := hs
        exact List.mem_cons_of_mem c (ih h2 t2 hsp ht)

theorem no_sep_suffix_eq (sep : Char) (cs : List Char)
    (h : sep ∉ cs) : suffixAfterLastSep sep cs = cs := by
  induction cs with
  | nil => rfl
  | cons c cs ih =>
    simp only [List.mem_cons, not_or] at h
    have hc : ¬ c = sep := fun hcc => h.1 hcc.symm
    simp [suffixAfterLastSep, h.2, hc]

/-- The `split("/")[-1]`-based stem agrees with the spec's
"substring after the last separator" formula, character by character. -/
theorem lastSegment_eq_suffix (sep : Char) (l : List Char) :
    (splitOnChar sep l).getLastD [] = suffixAfterLastSep sep l := by
  induction l with
  | nil => rfl
  | cons c cs ih =>
    cases hsp : splitOnChar sep cs with
    | nil => exact absurd hsp (splitOnChar_ne_nil sep cs)
    | cons h t =>
      rw [hsp] at ih
      by_cases hc : c = sep
      · simp only [List.getLastD_cons] at ih
        by_cases hcont : sep ∈ cs
        · simp only [splitOnChar, suffixAfterLastSep, hsp, if_pos hc, if_pos hcont,
            List.getLastD_cons]
          exact ih
        · simp only [splitOnChar, suffixAfterLastSep, hsp, if_pos hc, if_neg hcont,
            List.getLastD_cons]
          rw [ih, no_sep_suffix_eq sep cs hcont]
      · cases t with
        | nil =>
          obtain ⟨rfl, hnc⟩ := splitOnChar_singleton sep cs h hsp
          simp only [splitOnChar, suffixAfterLastSep, hsp, if_neg hc, if_neg hnc,
            List.getLastD_cons]
          simp
        | cons t1 ts =>
          have hcont : sep ∈ cs := mem_of_splitOnChar_long sep cs h (t1 :: ts) hsp (by simp)
          simp only [splitOnChar, suffixAfterLastSep, hsp, if_neg hc, if_pos hcont,
            List.getLastD_cons]
          simp only [List.getLastD_cons] at ih
          exact ih

/-! ## Existing-Results Index Builder (`get_existing_eval_results`)

`src/utils/hf_utils.py` lines 18-137.  The remote hub is a `RepoState`:
each remote primitive is an `Except String` value (`.error` models the
Python call raising).  `mainDownload` / `prDownload` bundle the
`hf_hub_download` + file read + `yaml.safe_load` steps that the source
performs inside one `try` block.  A sequence element whose dict accesses
raise (a non-mapping element, or one whose `dataset` value is not a
mapping) is `RawElem.malformed`; the source catches that exception with
the per-file handler, so processing of the rest of that file stops while
records already inserted from it are kept. -/

/-- One element of a parsed `.eval_results/*.yaml` sequence. -/
inductive RawElem where
  | parsed (r : Record)
  | malformed
deriving Repr

/-- Result of `yaml.safe_load` on a downloaded file: either not a list
(silently skipped by the `isinstance` check) or a list of elements. -/
inductive Loaded where
  | notList
  | list (elems : List RawElem)
deriving Repr

/-- One discussion returned by `get_repo_discussions`. -/
structure Discussion where
  num : Nat
  is_pull_request : Bool
  status : String
deriving DecidableEq, Repr

/-- The remote repository state the index builder scans. -/
structure RepoState where
  listRepoFiles : Except String (List String)
  mainDownload : String → Except String Loaded
  getRepoDiscussions : Except String (List Discussion)
  prListFiles : Nat → Except String (List String)
  prDownload : Nat → String → Except String Loaded

/-- One entry of the returned mapping: the dict literal built at
`hf_utils.py` lines 70-75 and 124-129. -/
structure ExistingInfo where
  source : String
  pr_num : Option Nat
  value : Option Rat
  file_path : String
deriving DecidableEq, Repr

/-- The `existing_results` mapping, with Python dict semantics
(insertion order kept, assignment updates in place). -/
abbrev ExistingMap := List (String × ExistingInfo)

/-- Python dict lookup (first matching key). -/
def dictGet (m : ExistingMap) (k : String) : Option ExistingInfo :=
  match m with
  | [] => none
  | (k2, v) :: rest => if k2 = k then some v else dictGet rest k

/-- Python dict assignment `m[k] = v`: update in place when the key is
present, else append at the end. -/
def dictInsert (m : ExistingMap) (k : String) (v : ExistingInfo) : ExistingMap :=
  match m with
  | [] => [(k, v)]
  | (k2, v2) :: rest =>
    if k2 = k then (k, v) :: rest else (k2, v2) :: dictInsert rest k v

/-- Python `str.startswith`, character-wise. -/
def pyStartsWith (s pre : String) : Bool :=
  pre.data.isPrefixOf s.data

/-- Python `str.endswith`, character-wise. -/
def pyEndsWith (s post : String) : Bool :=
  post.data.reverse.isPrefixOf s.data.reverse

/-- File filter at lines 49 and 99: `.eval_results/` prefix and `.yaml`
suffix. -/
def isEvalFile (f : String) : Bool :=
  pyStartsWith f (".eval_results/") && pyEndsWith f (".yaml")

/-- Record loop of the main-branch scan (lines 67-75): every record with
a truthy `dataset.id` is inserted (overwriting), `source = "main"`.
A malformed element raises; the per-file handler catches it, keeping the
map as built so far. -/
def processMainElems (filePath : String) : List RawElem → ExistingMap → ExistingMap
  | [], m => m
  | RawElem.malformed :: _, m => m
  | RawElem.parsed r :: rest, m =>
    match get_dataset_id r with
    | some s =>
      if s = "" then processMainElems filePath rest m
      else processMainElems filePath rest
        (dictInsert m s { source := "main", pr_num := none, value := r.value,
                          file_path := filePath })
    | none => processMainElems filePath rest m

/-- Per-file step of the main-branch scan (lines 51-77): download+parse
failures are caught and skip the file; non-list contents are skipped. -/
def processMainFile (st : RepoState) (m : ExistingMap) (f : String) : ExistingMap :=
  match st.mainDownload f with
  | Except.error _ => m
  | Except.ok Loaded.notList => m
  | Except.ok (Loaded.list elems) => processMainElems f elems m

/-- Main-branch phase (lines 44-79): a listing failure is caught and
contributes nothing; otherwise fold over the matching files starting
from the empty map. -/
def mainPhase (st : RepoState) : ExistingMap :=
  match st.listRepoFiles with
  | Except.error _ => []
  | Except.ok files => (files.filter isEvalFile).foldl (processMainFile st) []

/-- Record loop of the PR scan (lines 120-129): inserted only when the
benchmark id is truthy and not already a key, `source = "pr"` with that
PR's number. -/
def processPRElems (prNum : Nat) (filePath : String) :
    List RawElem → ExistingMap → ExistingMap
  | [], m => m
  | RawElem.malformed :: _, m => m
  | RawElem.parsed r :: rest, m =>
    match get_dataset_id r with
    | some s =>
      if s = "" then processPRElems prNum filePath rest m
      else if (dictGet m s).isSome then processPRElems prNum filePath rest m
      else processPRElems prNum filePath rest
        (dictInsert m s { source := "pr", pr_num := some prNum, value := r.value,
                          file_path := filePath })
    | none => processPRElems prNum filePath rest m

/-- Per-file step of the PR scan (lines 101-131): download+parse
failures are caught per file. -/
def processPRFile (st : RepoState) (prNum : Nat) (m : ExistingMap) (f : String) :
    ExistingMap :=
  match st.prDownload prNum f with
  | Except.error _ => m
  | Except.ok Loaded.notList => m
  | Except.ok (Loaded.list elems) => processPRElems prNum f elems m

/-- Per-PR step (lines 90-133): a failure listing that PR's files is
caught and the PR contributes nothing. -/
def processPR (st : RepoState) (m : ExistingMap) (d : Discussion) : ExistingMap :=
  match st.prListFiles d.num with
  | Except.error _ => m
  | Except.ok files => (files.filter isEvalFile).foldl (processPRFile st d.num) m

/-- Open pull requests (line 88): a failure listing discussions is
caught and yields none. -/
def openPRs (st : RepoState) : List Discussion :=
  match st.getRepoDiscussions with
  | Except.error _ => []
  | Except.ok ds => ds.filter (fun d => d.is_pull_request && d.status == "open")

/-- The index builder `get_existing_eval_results` (lines 18-137): main
branch scanned into an initially-empty map, then every open PR folded
over it.  Every remote failure is caught at the granularity the source
catches it, so the function is total and always returns a mapping. -/
def get_existing_eval_results (st : RepoState) : ExistingMap :=
  (openPRs st).foldl (processPR st) (mainPhase st)

theorem dictGet_insert (m : ExistingMap) (k k2 : String) (v : ExistingInfo) :
    dictGet (dictInsert m k v) k2 = if k = k2 then some v else dictGet m k2 := by
  induction m with
  | nil => simp [dictInsert, dictGet]
  | cons p rest ih =>
    obtain ⟨k3, v3⟩ := p
    by_cases h3 : k3 = k
    · subst h3
      by_cases h2 : k3 = k2
      · subst h2; simp [dictInsert, dictGet]
      · simp [dictInsert, dictGet, h2]
    · by_cases h2 : k3 = k2
      · subst h2
        have : ¬ k = k3 := fun hh => h3 hh.symm
        simp [dictInsert, dictGet, h3, this]
      · simp [dictInsert, dictGet, h3, h2, ih]

/-- PR-phase record loops never overwrite an existing entry. -/
theorem processPRElems_preserves (prNum : Nat) (fp : String)
    (elems : List RawElem) (m : ExistingMap) (k : String) (v : ExistingInfo)
    (h : dictGet m k = some v) :
    dictGet (processPRElems prNum fp elems m) k = some v := by
  induction elems generalizing m with
  | nil => exact h
  | cons e rest ih =>
    cases e with
    | malformed => exact h
    | parsed r =>
      simp only [processPRElems]
      cases hid : get_dataset_id r with
      | none => exact ih m h
      | some s =>
        by_cases hs : s = ""
        · simp only [if_pos hs]; exact ih m h
        · simp only [if_neg hs]
          by_cases hmem : (dictGet m s).isSome
          · simp only [if_pos hmem]; exact ih m h
          · simp only [if_neg hmem]
            apply ih
            rw [dictGet_insert]
            have hne : ¬ s = k := by
              intro hh
              rw [hh, h] at hmem
              simp at hmem
            simp [hne, h]

theorem processPRFile_preserves (st : RepoState) (prNum : Nat)
    (m : ExistingMap) (f : String) (k : String) (v : ExistingInfo)
    (h : dictGet m k = some v) :
    dictGet (processPRFile st prNum m f) k = some v := by
  unfold processPRFile
  cases st.prDownload prNum f with
  | error e => exact h
  | ok l =>
    cases l with
    | notList => exact h
    | list elems => exact processPRElems_preserves prNum f elems m k v h

theorem foldl_processPRFile_preserves (st : RepoState) (prNum : Nat)
    (files : List String) (m : ExistingMap) (k : String) (v : ExistingInfo)
    (h : dictGet m k = some v) :
    dictGet (files.foldl (processPRFile st prNum) m) k = some v := by
  induction files generalizing m with
  | nil => exact h
  | cons f rest ih =>
    exact ih _ (processPRFile_preserves st prNum m f k v h)

/-- A PR step never changes an entry that is already present. -/
theorem processPR_preserves (st : RepoState) (m : ExistingMap) (d : Discussion)
    (k : String) (v : ExistingInfo) (h : dictGet m k = some v) :
    dictGet (processPR st m d) k = some v := by
  unfold processPR
  cases st.prListFiles d.num with
  | error e => exact h
  | ok files => exact foldl_processPRFile_preserves st d.num _ m k v h

theorem foldl_processPR_preserves (st : RepoState) (prs : List Discussion)
    (m : ExistingMap) (k : String) (v : ExistingInfo)
    (h : dictGet m k = some v) :
    dictGet (prs.foldl (processPR st) m) k = some v := by
  induction prs generalizing m with
  | nil => exact h
  | cons d rest ih => exact ih _ (processPR_preserves st m d k v h)

/-! ## Document Fetcher (`fetch_huggingface_readme`)

`src/utils/hf_utils.py` lines 140-170.  The download primitive either
yields a local file (whose read then yields content or fails), raises an
`HfHubHTTPError` with a status code, or raises some other exception.
The printed log lines are modelled as tagged values so that what the
function logs and what it returns can be told apart. -/

/-- Outcome of the `hf_hub_download` call for `README.md`. -/
inductive DLOutcome where
  | ok (readResult : Except String String)
  | httpError (status : Nat)
  | otherError (msg : String)

/-- Environment of one fetch. -/
structure FetchEnv where
  download : DLOutcome

/-- The distinct log lines the fetcher can print. -/
inductive FetchLog where
  | notFound404
  | httpErrorLog (status : Nat)
  | downloadErrorLog
  | readErrorLog
deriving DecidableEq, Repr

/-- Whether a log line is the dedicated `README.md not found ... 404`
line (line 154 of the source). -/
def FetchLog.isNotFound (l : FetchLog) : Bool :=
  match l with
  | FetchLog.notFound404 => true
  | _ => false

/-- Whether any printed line was the not-found line. -/
def logsHaveNotFound (ls : List FetchLog) : Bool :=
  ls.any FetchLog.isNotFound

/-- The fetcher: returns the README content or `None`, and the log lines
it printed.  Every failure path returns `None`; only the logs differ. -/
def fetch_huggingface_readme (env : FetchEnv) : Option String × List FetchLog :=
  match env.download with
  | DLOutcome.httpError s =>
    if s = 404 then (none, [FetchLog.notFound404])
    else (none, [FetchLog.httpErrorLog s])
  | DLOutcome.otherError _ => (none, [FetchLog.downloadErrorLog])
  | DLOutcome.ok (Except.error _) => (none, [FetchLog.readErrorLog])
  | DLOutcome.ok (Except.ok content) => (some content, [])

/-! ## Proposal Submitter (`create_eval_results_pr`)

`src/utils/hf_utils.py` lines 173-328.  Effects are logged as `SEvent`s;
the outcome is `Except String (Option String)` (`.error` = the function
re-raised, `.ok none` = returned `None`, `.ok (some url)` = PR URL).
Deletion of staged files swallows `OSError` (lines 320-328), so the
cleanup is modelled as attempt events that carry no success/failure and
cannot influence the outcome. -/

/-- One `CommitOperationAdd` (line 280). -/
structure CommitOp where
  path_in_repo : String
  path_or_fileobj : String
deriving DecidableEq, Repr

/-- Observable effects of one submitter invocation. -/
inductive SEvent where
  | indexBuild
  | mkdirTemp (dir : String)
  | fileWrite (path : String) (content : Yaml)
  | commitCreate (title : String) (description : String) (ops : List CommitOp)
  | removeAttempt (path : String)
  | rmdirAttempt (dir : String)

/-- Environment of one submitter invocation: the repository state seen
by the index builder, and the fallible local/remote primitives. -/
structure SubmitEnv where
  indexState : RepoState
  mkdirResult : Except String Unit
  writeResult : String → Except String Unit
  commitResult : Except String String

/-- The dedup filter (lines 222-226): keep the candidates whose
`dataset.id` is not a key of the existing-results map.  A record with a
missing id has key `None` in Python, which is never a string key. -/
def dictContainsKey (m : ExistingMap) (k : Option String) : Bool :=
  match k with
  | some s => (dictGet m s).isSome
  | none => false

/-- The list comprehension at lines 223-226. -/
def dedupFilter (results : List Record) (existing : ExistingMap) : List Record :=
  results.filter (fun r => ! dictContainsKey existing (get_dataset_id r))

/-- `repo_id.replace("/", "_").replace("\\", "_")` (line 237). -/
def sanitizeRepoId (s : String) : String :=
  String.mk (s.data.map (fun c => if c = '/' ∨ c = '\\' then '_' else c))

/-- The per-run staging directory (line 238), relative to the project
root: `outputs/temp_<sanitized repo id>`. -/
def tempDirOf (repo_id : String) : String :=
  "outputs/temp_" ++ sanitizeRepoId repo_id

/-- Python `str.upper()`, character-wise. -/
def pyUpper (s : String) : String :=
  String.mk (s.data.map Char.toUpper)

/-- Accumulator of the staging loop (lines 241-284): the four lists the
source builds, plus the write events performed so far. -/
structure StageState where
  temp_files : List String
  operations : List CommitOp
  benchmark_names : List String
  benchmark_ids : List String
  events : List SEvent

/-- The staging loop (lines 248-284): skip records with a falsy
`dataset.id`; write one YAML artifact per surviving record into the
temp directory; a write failure raises (second component `some e`),
leaving the accumulator at its state so far. -/
def stageLoop (env : SubmitEnv) (tempDir : String) :
    List Record → StageState → StageState × Option String
  | [], st => (st, none)
  | r :: rest, st =>
    let dataset_id := (get_dataset_id r).getD ""
    if dataset_id = "" then stageLoop env tempDir rest st
    else
      let dataset_name := dataset_name_hf dataset_id
      let filename := dataset_name ++ (".yaml")
      let temp_path := tempDir ++ ("/") ++ filename
      match env.writeResult temp_path with
      | Except.error e => (st, some e)
      | Except.ok _ =>
        stageLoop env tempDir rest
          { temp_files := st.temp_files ++ [temp_path],
            operations := st.operations ++
              [{ path_in_repo := (".eval_results/") ++ filename,
                 path_or_fileobj := temp_path }],
            benchmark_names := st.benchmark_names ++ [pyUpper dataset_name],
            benchmark_ids := st.benchmark_ids ++ [dataset_id],
            events := st.events ++ [SEvent.fileWrite temp_path (yamlDumpArtifact r)] }

/-- PR title (line 292). -/
def prTitle (benchmark_names : List String) : String :=
  "Add community evaluation results for " ++ String.intercalate (", ") benchmark_names

/-- PR description (lines 293-298). -/
def prDescription (benchmark_names benchmark_ids : List String) : String :=
  "This PR adds community-provided evaluation results for the following benchmarks:\n\n- " ++
  String.intercalate ("\n")
    ((benchmark_names.zip benchmark_ids).map
      (fun p => "**[" ++ p.1 ++ "](https://huggingface.co/datasets/" ++ p.2 ++ ")**")) ++
  "\n\nThese results were extracted from the model card. This is based on the new " ++
  "[evaluation results feature](https://huggingface.co/docs/hub/eval-results)." ++
  "*Note: This is an automated PR. Please review the evaluation results before merging.*"

/-- The `try` body after staging (lines 246-317): early `None` return
when no operation was built, otherwise one `create_commit` attempt whose
failure re-raises.  Returns (outcome, final stage state, commit events). -/
def submitBody (env : SubmitEnv) (repo_id : String) (results : List Record) :
    Except String (Option String) × StageState × List SEvent :=
  let tempDir := tempDirOf repo_id
  let p := stageLoop env tempDir results
    { temp_files := [], operations := [], benchmark_names := [],
      benchmark_ids := [], events := [] }
  match p.2 with
  | some e => (Except.error e, p.1, [])
  | none =>
    if p.1.operations.isEmpty then (Except.ok none, p.1, [])
    else
      let ev := SEvent.commitCreate (prTitle p.1.benchmark_names)
        (prDescription p.1.benchmark_names p.1.benchmark_ids) p.1.operations
      match env.commitResult with
      | Except.ok url => (Except.ok (some url), p.1, [ev])
      | Except.error e => (Except.error e, p.1, [ev])

/-- The candidate list after the optional dedup step (lines 212-226):
with `skip_existing`, the index is built and the dedup filter applied;
otherwise the candidates pass through unchanged. -/
def survivingResults (env : SubmitEnv) (results0 : List Record)
    (skip_existing : Bool) : List Record :=
  if skip_existing then dedupFilter results0 (get_existing_eval_results env.indexState)
  else results0

/-- The Proposal Submitter `create_eval_results_pr` (lines 173-328).
`results0` is `evaluation_results.get("evaluation_results", [])`.
Control flow: empty candidates return `None` with no effect at all;
with `skip_existing` the index is built and the dedup filter applied,
returning `None` when nothing survives; then the staging directory is
created (a `makedirs` failure raises before the `try`, so no cleanup),
the body runs, and the `finally` block always attempts to delete every
staged file and the directory, ignoring deletion errors. -/
def create_eval_results_pr (env : SubmitEnv) (repo_id : String)
    (results0 : List Record) (skip_existing : Bool) :
    Except String (Option String) × List SEvent :=
  if results0.isEmpty then (Except.ok none, [])
  else
    let results := survivingResults env results0 skip_existing
    let ev0 : List SEvent := if skip_existing then [SEvent.indexBuild] else []
    if skip_existing && results.isEmpty then (Except.ok none, ev0)
    else
      let tempDir := tempDirOf repo_id
      match env.mkdirResult with
      | Except.error e => (Except.error e, ev0)
      | Except.ok _ =>
        let b := submitBody env repo_id results
        (b.1,
         ev0 ++ [SEvent.mkdirTemp tempDir] ++ b.2.1.events ++ b.2.2 ++
           b.2.1.temp_files.map SEvent.removeAttempt ++ [SEvent.rmdirAttempt tempDir])

/-! ## Local Artifact Writer (`write_output`)

`src/main.py` lines 100-141.  Effects as `WEvent`s; the output folder is
created before the empty check, exactly as in the source. -/

/-- `repo_id.replace("/", "__")` (line 107). -/
def repoFolderName (s : String) : String :=
  String.mk ((s.data.map (fun c => if c = '/' then ['_', '_'] else [c])).flatten)

/-- Observable effects of `write_output`. -/
inductive WEvent where
  | mkdirOutput (dir : String)
  | fileWrite (path : String) (content : Yaml)
  | logWarnMissingId
  | logNothingToWrite
  | logWritten (files : List String)

/-- The local writer `write_output` (lines 100-141): create the output
folder, return after a "nothing to write" log when there are no
results, otherwise write one artifact per record (skipping records with
a falsy `dataset.id`) and log the written files. -/
def write_output (repo_id : String) (results : List Record) : List WEvent :=
  let output_folder := "outputs/" ++ repoFolderName repo_id
  let ev0 := [WEvent.mkdirOutput output_folder]
  if results.isEmpty then ev0 ++ [WEvent.logNothingToWrite]
  else
    let step := fun (acc : List WEvent × List String) (r : Record) =>
      let dataset_id := (get_dataset_id r).getD ""
      if dataset_id = "" then (acc.1 ++ [WEvent.logWarnMissingId], acc.2)
      else
        let dataset_name := dataset_name_main dataset_id
        let output_path := output_folder ++ ("/") ++ dataset_name ++ (".yaml")
        (acc.1 ++ [WEvent.fileWrite output_path (yamlDumpArtifact r)],
         acc.2 ++ [output_path])
    let p := results.foldl step ([], [])
    ev0 ++ p.1 ++ [WEvent.logWritten p.2]

/-- Final file-system content at a path after a list of write events
(later writes overwrite earlier ones). -/
def applyFS (evs : List WEvent) (p : String) : Option Yaml :=
  evs.foldl
    (fun acc e =>
      match e with
      | WEvent.fileWrite q c => if q = p then some c else acc
      | _ => acc)
    none

/-- Commit operations submitted across a list of submitter events. -/
def commitOpsOf (evs : List SEvent) : List CommitOp :=
  evs.foldr
    (fun e acc =>
      match e with
      | SEvent.commitCreate _ _ ops => ops ++ acc
      | _ => acc)
    []

/-- Every entry the main-branch phase produces is tagged `source = "main"`. -/
theorem processMainElems_source (fp : String) (elems : List RawElem)
    (m : ExistingMap)
    (hm : ∀ k v, dictGet m k = some v → v.source = "main") :
    ∀ k v, dictGet (processMainElems fp elems m) k = some v → v.source = "main" := by
  induction elems generalizing m with
  | nil => exact hm
  | cons e rest ih =>
    cases e with
    | malformed => exact hm
    | parsed r =>
      simp only [processMainElems]
      cases hid : get_dataset_id r with
      | none => exact ih m hm
      | some s =>
        by_cases hs : s = ""
        · simp only [if_pos hs]; exact ih m hm
        · simp only [if_neg hs]
          apply ih
          intro k v hkv
          rw [dictGet_insert] at hkv
          by_cases hsk : s = k
          · rw [if_pos hsk] at hkv
            cases Option.some.inj hkv
            rfl
          · rw [if_neg hsk] at hkv
            exact hm k v hkv

theorem processMainFile_source (st : RepoState) (m : ExistingMap) (f : String)
    (hm : ∀ k v, dictGet m k = some v → v.source = "main") :
    ∀ k v, dictGet (processMainFile st m f) k = some v → v.source = "main" := by
  unfold processMainFile
  cases st.mainDownload f with
  | error e => exact hm
  | ok l =>
    cases l with
    | notList => exact hm
    | list elems => exact processMainElems_source f elems m hm

theorem foldl_mainFile_source (st : RepoState) (files : List String)
    (m : ExistingMap)
    (hm : ∀ k v, dictGet m k = some v → v.source = "main") :
    ∀ k v, dictGet (files.foldl (processMainFile st) m) k = some v →
      v.source = "main" := by
  induction files generalizing m with
  | nil => exact hm
  | cons f rest ih => exact ih _ (processMainFile_source st m f hm)

theorem mainPhase_source (st : RepoState) :
    ∀ k v, dictGet (mainPhase st) k = some v → v.source = "main" := by
  unfold mainPhase
  cases st.listRepoFiles with
  | error e => intro k v h; exact Option.noConfusion h
  | ok files =>
    exact foldl_mainFile_source st (files.filter isEvalFile) []
      (fun k v h => Option.noConfusion h)

/-- An entry that appears during a PR record loop (absent before,
present after) carries `source = "pr"` and that PR's number. -/
theorem processPRElems_new (prNum : Nat) (fp : String) (elems : List RawElem)
    (m : ExistingMap) (k : String) (v : ExistingInfo)
    (h0 : dictGet m k = none)
    (h1 : dictGet (processPRElems prNum fp elems m) k = some v) :
    v.source = "pr" ∧ v.pr_num = some prNum := by
  induction elems generalizing m with
  | nil =>
    simp only [processPRElems] at h1
    rw [h0] at h1
    exact Option.noConfusion h1
  | cons e rest ih =>
    cases e with
    | malformed =>
      simp only [processPRElems] at h1
      rw [h0] at h1
      exact Option.noConfusion h1
    | parsed r =>
      simp only [processPRElems] at h1
      split at h1
      · split at h1
        · exact ih m h0 h1
        · split at h1
          · exact ih m h0 h1
          · rename_i s heq hs hmem
            by_cases hsk : s = k
            · subst hsk
              have hget : dictGet
                  (dictInsert m s
                    { source := "pr", pr_num := some prNum, value := r.value,
                      file_path := fp }) s =
                  some { source := "pr", pr_num := some prNum, value := r.value,
                         file_path := fp } := by
                rw [dictGet_insert]; simp
              have h2 := processPRElems_preserves prNum fp rest _ s _ hget
              rw [h1] at h2
              cases Option.some.inj h2
              exact ⟨rfl, rfl⟩
            · have h0b : dictGet
                  (dictInsert m s
                    { source := "pr", pr_num := some prNum, value := r.value,
                      file_path := fp }) k = none := by
                rw [dictGet_insert, if_neg hsk, h0]
              exact ih _ h0b h1
      · exact ih m h0 h1

theorem processPRFile_new (st : RepoState) (prNum : Nat) (m : ExistingMap)
    (f : String) (k : String) (v : ExistingInfo)
    (h0 : dictGet m k = none)
    (h1 : dictGet (processPRFile st prNum m f) k = some v) :
    v.source = "pr" ∧ v.pr_num = some prNum := by
  unfold processPRFile at h1
  cases hdl : st.prDownload prNum f with
  | error e =>
    rw [hdl] at h1
    rw [h0] at h1
    exact Option.noConfusion h1
  | ok l =>
    rw [hdl] at h1
    cases l with
    | notList =>
      rw [h0] at h1
      exact Option.noConfusion h1
    | list elems => exact processPRElems_new prNum f elems m k v h0 h1

theorem foldl_prFile_new (st : RepoState) (prNum : Nat) (files : List String)
    (m : ExistingMap) (k : String) (v : ExistingInfo)
    (h0 : dictGet m k = none)
    (h1 : dictGet (files.foldl (processPRFile st prNum) m) k = some v) :
    v.source = "pr" ∧ v.pr_num = some prNum := by
  induction files generalizing m with
  | nil =>
    simp only [List.foldl_nil] at h1
    rw [h0] at h1
    exact Option.noConfusion h1
  | cons f rest ih =>
    simp only [List.foldl_cons] at h1
    cases hmid : dictGet (processPRFile st prNum m f) k with
    | none => exact ih _ hmid h1
    | some w =>
      have hw := processPRFile_new st prNum m f k w h0 hmid
      have hpres := foldl_processPRFile_preserves st prNum rest _ k w hmid
      rw [h1] at hpres
      cases Option.some.inj hpres
      exact hw

theorem processPR_new (st : RepoState) (m : ExistingMap) (d : Discussion)
    (k : String) (v : ExistingInfo)
    (h0 : dictGet m k = none)
    (h1 : dictGet (processPR st m d) k = some v) :
    v.source = "pr" ∧ v.pr_num = some d.num := by
  unfold processPR at h1
  split at h1
  · rw [h0] at h1
    exact Option.noConfusion h1
  · exact foldl_prFile_new st d.num _ m k v h0 h1

/-- Decoding inverts encoding on every record, by field values. -/
theorem decodeRecord_encodeRecord (r : Record) :
    decodeRecord (encodeRecord r) = some r := by
  obtain ⟨d, v, s⟩ := r
  have hd : ∀ dd : RDataset, decodeDataset (encodeDataset dd) = some dd := by
    rintro ⟨i, t⟩
    rcases i with _ | i <;> rcases t with _ | t <;> rfl
  have hsrc : ∀ ss : RSource, decodeSource (encodeSource ss) = some ss := by
    rintro ⟨u, n⟩
    rcases u with _ | u <;> rcases n with _ | n <;> rfl
  rcases d with _ | d <;> rcases v with _ | v <;> rcases s with _ | s <;>
    simp [encodeRecord, decodeRecord, yLookup, hd, hsrc]

/-- C6: for every evaluation-result record, writing it via the Artifact
Writer (a one-element YAML sequence, declared key order, non-ASCII kept
verbatim at the value level) and parsing the written file back yields a
one-element sequence whose element equals the original record by field
values; the keys of the written mapping (and of its nested mappings)
follow the declared field order `dataset, value, source` (resp.
`id, task_id` and `url, name`), absent fields omitted. -/
theorem C6_artifact_roundtrip (r : Record) :
    decodeArtifact (yamlDumpArtifact r) = some [r] ∧
    yamlKeys (encodeRecord r) =
      (if r.dataset.isSome then [("dataset" : String)] else []) ++
      (if r.value.isSome then [("value" : String)] else []) ++
      (if r.source.isSome then [("source" : String)] else []) ∧
    (∀ d : RDataset, yamlKeys (encodeDataset d) =
      (if d.id.isSome then [("id" : String)] else []) ++
      (if d.task_id.isSome then [("task_id" : String)] else [])) ∧
    (∀ s : RSource, yamlKeys (encodeSource s) =
      (if s.url.isSome then [("url" : String)] else []) ++
      (if s.name.isSome then [("name" : String)] else [])) := by
  refine ⟨?_, ?_, ?_, ?_⟩
  · simp [decodeArtifact, yamlDumpArtifact, List.mapM, List.mapM.loop,
      decodeRecord_encodeRecord r]
  · obtain ⟨d, v, s⟩ := r
    rcases d with _ | d <;> rcases v with _ | v <;> rcases s with _ | s <;> rfl
  · rintro ⟨i, t⟩
    rcases i with _ | i <;> rcases t with _ | t <;> rfl
  · rintro ⟨u, n⟩
    rcases u with _ | u <;> rcases n with _ | n <;> rfl

/-- C3: the artifact filename stem is the same deterministic pure
function of `dataset.id` in the local writer and in the staging writer,
and equals the substring of `dataset.id` after the last `/` separator,
lowercased. -/
theorem C3_filename_stem (dataset_id : String) (h : dataset_id ≠ "") :
    dataset_name_hf dataset_id = dataset_name_main dataset_id ∧
    dataset_name_hf dataset_id = specStem dataset_id := by
  refine ⟨rfl, ?_⟩
  unfold dataset_name_hf specStem
  rw [lastSegment_eq_suffix]

/-- Witness for C3 at the spec's own examples. -/
theorem C3_filename_stem_witness :
    (("Idavidrein/gpqa" : String) = "") = False ∧
    dataset_name_hf ("Idavidrein/gpqa") = dataset_name_main ("Idavidrein/gpqa") ∧
    dataset_name_hf ("Idavidrein/gpqa") = specStem ("Idavidrein/gpqa") ∧
    dataset_name_hf ("Idavidrein/gpqa") = "gpqa" ∧
    dataset_name_hf ("openai/gsm8k") = "gsm8k" := by
  have h := C3_filename_stem ("Idavidrein/gpqa") (by decide)
  exact ⟨by simp, h.1, h.2, by decide, by decide⟩

/-- C1: the dedup filter of the submission routine returns exactly the
subsequence of the candidate list whose records' `dataset.id` is not a
key of the existing-results index: order is preserved (sublist), no kept
record's id is a key, every candidate whose id is not a key is kept, and
multiplicities are exact. -/
theorem C1_dedup_filter_exact (C : List Record) (E : ExistingMap) :
    List.Sublist (dedupFilter C E) C ∧
    (∀ r, r ∈ dedupFilter C E → dictContainsKey E (get_dataset_id r) = false) ∧
    (∀ r, r ∈ C → dictContainsKey E (get_dataset_id r) = false →
      r ∈ dedupFilter C E) ∧
    (∀ r, List.count r (dedupFilter C E) =
      if dictContainsKey E (get_dataset_id r) = true then 0
      else List.count r C) := by
  refine ⟨List.filter_sublist C, ?_, ?_, ?_⟩
  · intro r hr
    have h2 := (List.mem_filter.mp hr).2
    simpa using h2
  · intro r hrC hkey
    exact List.mem_filter.mpr ⟨hrC, by simp [hkey]⟩
  · intro r
    by_cases hkey : dictContainsKey E (get_dataset_id r) = true
    · rw [if_pos hkey]
      apply List.count_eq_zero_of_not_mem
      intro hr
      have h2 := (List.mem_filter.mp hr).2
      simp [hkey] at h2
    · rw [if_neg hkey]
      apply List.count_filter
      simp only [Bool.not_eq_true] at hkey
      simp [dedupFilter, hkey]

/-- C2: in the built index, a proposed-source finding is recorded only
if no entry already exists (a PR step never changes a present entry);
every benchmark identity found by the main-branch phase keeps its
main-branch entry, tagged `source = "main"` (the code's name for the
published branch), in the final index; whatever entry is present right
after the first enumerated proposal that contributes a key survives to
the final index (first-listed proposal wins); and an entry a PR step
adds for a previously absent key is tagged `source = "pr"` with that
proposal's number. -/
theorem C2_index_precedence (st : RepoState) :
    (∀ m d k v, dictGet m k = some v → dictGet (processPR st m d) k = some v) ∧
    (∀ k v, dictGet (mainPhase st) k = some v →
      dictGet (get_existing_eval_results st) k = some v ∧ v.source = "main") ∧
    (∀ pre d post k v, openPRs st = pre ++ d :: post →
      dictGet (List.foldl (processPR st) (mainPhase st) (pre ++ [d])) k = some v →
      dictGet (get_existing_eval_results st) k = some v) ∧
    (∀ m d k v, dictGet m k = none → dictGet (processPR st m d) k = some v →
      v.source = "pr" ∧ v.pr_num = some d.num) := by
  refine ⟨?_, ?_, ?_, ?_⟩
  · intro m d k v h
    exact processPR_preserves st m d k v h
  · intro k v h
    exact ⟨foldl_processPR_preserves st (openPRs st) (mainPhase st) k v h,
           mainPhase_source st k v h⟩
  · intro pre d post k v hpr h
    unfold get_existing_eval_results
    rw [hpr, List.append_cons, List.foldl_append]
    exact foldl_processPR_preserves st post _ k v h
  · intro m d k v h0 h1
    exact processPR_new st m d k v h0 h1

/-- C4: the index builder never raises: in the embedding every fallible
primitive is caught where the source catches it, so each failure only
removes that source's findings — a main-branch listing failure leaves
the PR scan over an empty initial map, a discussion-listing failure
leaves the main findings, a per-file or per-PR failure leaves the map
unchanged, and when everything fails the result is the empty mapping. -/
theorem C4_builder_total (st : RepoState) :
    (∀ e, st.listRepoFiles = Except.error e →
      get_existing_eval_results st = List.foldl (processPR st) [] (openPRs st)) ∧
    (∀ e, st.getRepoDiscussions = Except.error e →
      get_existing_eval_results st = mainPhase st) ∧
    (∀ e f m, st.mainDownload f = Except.error e → processMainFile st m f = m) ∧
    (∀ e d m, st.prListFiles d.num = Except.error e → processPR st m d = m) ∧
    (∀ e n f m, st.prDownload n f = Except.error e → processPRFile st n m f = m) ∧
    (∀ e1 e2, st.listRepoFiles = Except.error e1 →
      st.getRepoDiscussions = Except.error e2 →
      get_existing_eval_results st = []) := by
  refine ⟨?_, ?_, ?_, ?_, ?_, ?_⟩
  · intro e he
    have hm : mainPhase st = [] := by unfold mainPhase; rw [he]
    unfold get_existing_eval_results
    rw [hm]
  · intro e he
    have ho : openPRs st = [] := by unfold openPRs; rw [he]
    unfold get_existing_eval_results
    rw [ho]
    rfl
  · intro e f m he
    unfold processMainFile
    rw [he]
  · intro e d m he
    unfold processPR
    rw [he]
  · intro e n f m he
    unfold processPRFile
    rw [he]
  · intro e1 e2 he1 he2
    have hm : mainPhase st = [] := by unfold mainPhase; rw [he1]
    have ho : openPRs st = [] := by unfold openPRs; rw [he2]
    unfold get_existing_eval_results
    rw [hm, ho]
    rfl

/-- Unfolding of the submitter on the path that reaches the staging
directory: nonempty candidates, a nonempty post-dedup list, and a
successful `makedirs`. -/
theorem create_pr_unfold (env : SubmitEnv) (repo_id : String)
    (results0 : List Record) (skip_existing : Bool)
    (h1b : results0.isEmpty = false)
    (hre : (survivingResults env results0 skip_existing).isEmpty = false)
    (h3 : env.mkdirResult = Except.ok ()) :
    create_eval_results_pr env repo_id results0 skip_existing =
      ((submitBody env repo_id (survivingResults env results0 skip_existing)).1,
       (if skip_existing then [SEvent.indexBuild] else []) ++
         [SEvent.mkdirTemp (tempDirOf repo_id)] ++
         (submitBody env repo_id (survivingResults env results0 skip_existing)).2.1.events ++
         (submitBody env repo_id (survivingResults env results0 skip_existing)).2.2 ++
         (submitBody env repo_id (survivingResults env results0 skip_existing)).2.1.temp_files.map
           SEvent.removeAttempt ++
         [SEvent.rmdirAttempt (tempDirOf repo_id)]) := by
  simp only [create_eval_results_pr]
  rw [h1b, hre, h3]
  simp

/-- C5: once the staging directory has been created, a deletion attempt
is made for every staged artifact file, and for the temporary directory,
on every exit path (success, early `None` return, or re-raise), and the
cleanup never changes the submitter's outcome (deletion errors are
swallowed: the model records only deletion attempts, which cannot feed
back into the result). -/
theorem C5_cleanup_always_attempted (env : SubmitEnv) (repo_id : String)
    (results0 : List Record) (skip_existing : Bool)
    (h1 : results0 = [] → False)
    (h2 : survivingResults env results0 skip_existing = [] → False)
    (h3 : env.mkdirResult = Except.ok ()) :
    (∀ f, f ∈ (submitBody env repo_id
        (survivingResults env results0 skip_existing)).2.1.temp_files →
      SEvent.removeAttempt f ∈
        (create_eval_results_pr env repo_id results0 skip_existing).2) ∧
    SEvent.rmdirAttempt (tempDirOf repo_id) ∈
      (create_eval_results_pr env repo_id results0 skip_existing).2 ∧
    (create_eval_results_pr env repo_id results0 skip_existing).1 =
      (submitBody env repo_id (survivingResults env results0 skip_existing)).1 := by
  have h1b : results0.isEmpty = false := by
    cases results0 with
    | nil => exact absurd rfl h1
    | cons a l => rfl
  have hre : (survivingResults env results0 skip_existing).isEmpty = false := by
    cases hs : survivingResults env results0 skip_existing with
    | nil => exact absurd hs h2
    | cons a l => rfl
  rw [create_pr_unfold env repo_id results0 skip_existing h1b hre h3]
  refine ⟨?_, ?_, rfl⟩
  · intro f hf
    exact List.mem_append.mpr (Or.inl (List.mem_append.mpr (Or.inr
      (List.mem_map_of_mem SEvent.removeAttempt hf))))
  · exact List.mem_append.mpr (Or.inr (by simp))

/-- Counterexample for C7: at the caller's interface (the returned
value), a missing README (HTTP 404) and a transport failure (HTTP 500)
are the same outcome — both return `None`; the claimed typed distinction
does not exist in the result type. -/
theorem C7_counterexample :
    (fetch_huggingface_readme ⟨DLOutcome.httpError 404⟩).1 = none ∧
    (fetch_huggingface_readme ⟨DLOutcome.httpError 500⟩).1 = none ∧
    (fetch_huggingface_readme ⟨DLOutcome.httpError 404⟩).1 =
      (fetch_huggingface_readme ⟨DLOutcome.httpError 500⟩).1 :=
  ⟨rfl, rfl, rfl⟩

/-- C7 (amended): the fetcher returns `None` for a missing file and for
every failure alike; absence is distinguished from transport and other
failures only in the printed log line — a 404 prints the dedicated
not-found line, which no other path prints. -/
theorem C7_absence_logged_not_typed (s : Nat) (hs : s = 404 → False)
    (msg e content : String) :
    fetch_huggingface_readme ⟨DLOutcome.httpError 404⟩ =
      (none, [FetchLog.notFound404]) ∧
    fetch_huggingface_readme ⟨DLOutcome.httpError s⟩ =
      (none, [FetchLog.httpErrorLog s]) ∧
    fetch_huggingface_readme ⟨DLOutcome.otherError msg⟩ =
      (none, [FetchLog.downloadErrorLog]) ∧
    fetch_huggingface_readme ⟨DLOutcome.ok (Except.error e)⟩ =
      (none, [FetchLog.readErrorLog]) ∧
    fetch_huggingface_readme ⟨DLOutcome.ok (Except.ok content)⟩ =
      (some content, []) ∧
    logsHaveNotFound (fetch_huggingface_readme ⟨DLOutcome.httpError 404⟩).2 = true ∧
    logsHaveNotFound (fetch_huggingface_readme ⟨DLOutcome.httpError s⟩).2 = false ∧
    logsHaveNotFound (fetch_huggingface_readme ⟨DLOutcome.otherError msg⟩).2 = false := by
  refine ⟨rfl, ?_, rfl, rfl, rfl, rfl, ?_, rfl⟩
  · simp only [fetch_huggingface_readme]
    rw [if_neg hs]
  · simp only [fetch_huggingface_readme]
    rw [if_neg hs]
    rfl

/-- Witness for C7's amended statement at status 500. -/
theorem C7_absence_logged_witness :
    fetch_huggingface_readme ⟨DLOutcome.httpError 500⟩ =
      (none, [FetchLog.httpErrorLog 500]) ∧
    logsHaveNotFound (fetch_huggingface_readme ⟨DLOutcome.httpError 404⟩).2 = true ∧
    logsHaveNotFound (fetch_huggingface_readme ⟨DLOutcome.httpError 500⟩).2 = false := by
  have h := C7_absence_logged_not_typed 500 (by decide) ("boom") ("io") ("text")
  exact ⟨h.2.1, h.2.2.2.2.2.1, h.2.2.2.2.2.2.1⟩

/-- C8: with an empty candidate list the submitter returns `None`
immediately and performs no effect at all — no index build, no file
listing, no staging, no commit creation. -/
theorem C8_empty_candidates_noop (env : SubmitEnv) (repo_id : String)
    (skip_existing : Bool) :
    create_eval_results_pr env repo_id [] skip_existing = (Except.ok none, []) :=
  rfl

/-- C9: with zero extracted records, `write_output` performs zero file
writes and logs the "nothing to write" message before returning (the
output folder is still created first, as in the source, but no file is
written). -/
theorem C9_write_output_empty (repo_id : String) :
    write_output repo_id [] =
      [WEvent.mkdirOutput ("outputs/" ++ repoFolderName repo_id),
       WEvent.logNothingToWrite] ∧
    (∀ p c, WEvent.fileWrite p c ∈ write_output repo_id [] → False) := by
  refine ⟨rfl, ?_⟩
  intro p c hmem
  simp [write_output] at hmem

/-- Witness for C9 at a concrete repository id and write event. -/
theorem C9_write_output_empty_witness :
    write_output ("acme/model-x") [] =
      [WEvent.mkdirOutput ("outputs/acme__model-x"), WEvent.logNothingToWrite] ∧
    (WEvent.fileWrite ("outputs/acme__model-x/x.yaml") (Yaml.seq []) ∈
      write_output ("acme/model-x") [] → False) := by
  have h := C9_write_output_empty ("acme/model-x")
  exact ⟨by rw [h.1]; rfl, h.2 ("outputs/acme__model-x/x.yaml") (Yaml.seq [])⟩

/-! ## Concrete instances used by witnesses and by the collision claim -/

/-- Record for benchmark id `a/gsm8k` with value 1. -/
def recGsmA : Record :=
  { dataset := some { id := some ("a/gsm8k"), task_id := none },
    value := some 1, source := none }

/-- Record for benchmark id `b/GSM8K` (same short name up to case) with
value 2. -/
def recGsmB : Record :=
  { dataset := some { id := some ("b/GSM8K"), task_id := none },
    value := some 2, source := none }

/-- Record for benchmark id `cais/hle` with the given value. -/
def recHle (v : Rat) : Record :=
  { dataset := some { id := some ("cais/hle"), task_id := none },
    value := some v, source := none }

/-- Record for benchmark id `x/extra` with the given value. -/
def recExtra (v : Rat) : Record :=
  { dataset := some { id := some ("x/extra"), task_id := none },
    value := some v, source := none }

/-- First open pull request. -/
def prOne : Discussion := { num := 1, is_pull_request := true, status := "open" }

/-- Second open pull request. -/
def prTwo : Discussion := { num := 2, is_pull_request := true, status := "open" }

/-- A repository state whose every remote primitive fails. -/
def stAllErr : RepoState :=
  { listRepoFiles := Except.error ("down"),
    mainDownload := fun _ => Except.error ("down"),
    getRepoDiscussions := Except.error ("down"),
    prListFiles := fun _ => Except.error ("down"),
    prDownload := fun _ _ => Except.error ("down") }

/-- A repository state with `cais/hle` published at 40 on the main
branch, and two open PRs each proposing `cais/hle` at 42 plus `x/extra`
(value 1 in PR #1, value 2 in PR #2). -/
def stTwoSources : RepoState :=
  { listRepoFiles := Except.ok [(".eval_results/hle.yaml")],
    mainDownload := fun _ => Except.ok (Loaded.list [RawElem.parsed (recHle 40)]),
    getRepoDiscussions := Except.ok [prOne, prTwo],
    prListFiles := fun _ => Except.ok [(".eval_results/hle.yaml")],
    prDownload := fun n _ => Except.ok (Loaded.list
      [RawElem.parsed (recHle 42),
       RawElem.parsed (recExtra (if n = 1 then 1 else 2))]) }

/-- The main-branch index entry for `cais/hle` in `stTwoSources`. -/
def infoHleMain : ExistingInfo :=
  { source := "main", pr_num := none, value := some 40,
    file_path := ".eval_results/hle.yaml" }

/-- The first-PR index entry for `x/extra` in `stTwoSources`. -/
def infoExtraPR : ExistingInfo :=
  { source := "pr", pr_num := some 1, value := some 1,
    file_path := ".eval_results/hle.yaml" }

/-- Submitter environment whose `create_commit` fails. -/
def envCommitFail : SubmitEnv :=
  { indexState := stAllErr, mkdirResult := Except.ok (),
    writeResult := fun _ => Except.ok (),
    commitResult := Except.error ("network down") }

/-- Submitter environment in which everything succeeds. -/
def envAllOk : SubmitEnv :=
  { indexState := stAllErr, mkdirResult := Except.ok (),
    writeResult := fun _ => Except.ok (),
    commitResult := Except.ok ("https://huggingface.co/u/m/discussions/1") }

/-- Whether a submitter event is the `create_commit` call. -/
def isCommitCreate (e : SEvent) : Bool :=
  match e with
  | SEvent.commitCreate _ _ _ => true
  | _ => false

/-- Witness for C1 on a concrete candidate list and index: `a/gsm8k`
already exists, `b/GSM8K` does not; order kept, the existing one
dropped, the new one kept. -/
theorem C1_dedup_filter_exact_witness :
    List.Sublist (dedupFilter [recGsmA, recGsmB] [(("a/gsm8k"), infoHleMain)])
      [recGsmA, recGsmB] ∧
    recGsmB ∈ dedupFilter [recGsmA, recGsmB] [(("a/gsm8k"), infoHleMain)] ∧
    List.count recGsmA (dedupFilter [recGsmA, recGsmB] [(("a/gsm8k"), infoHleMain)]) =
      (if dictContainsKey [(("a/gsm8k"), infoHleMain)] (get_dataset_id recGsmA) = true
       then 0 else List.count recGsmA [recGsmA, recGsmB]) := by
  have h := C1_dedup_filter_exact [recGsmA, recGsmB] [(("a/gsm8k"), infoHleMain)]
  exact ⟨h.1, h.2.2.1 recGsmB (by decide) (by decide), h.2.2.2 recGsmA⟩

/-- Witness for C2 on `stTwoSources`: the published `cais/hle` entry
wins over both proposals, and `x/extra` keeps the value and number of
the first-listed proposal. -/
theorem C2_index_precedence_witness :
    dictGet (get_existing_eval_results stTwoSources) ("cais/hle") = some infoHleMain ∧
    infoHleMain.source = "main" ∧
    dictGet (get_existing_eval_results stTwoSources) ("x/extra") = some infoExtraPR ∧
    infoExtraPR.source = "pr" ∧ infoExtraPR.pr_num = some prOne.num := by
  have h := C2_index_precedence stTwoSources
  have hmain := h.2.1 ("cais/hle") infoHleMain (by rfl)
  have hfirst := h.2.2.1 [] prOne [prTwo] ("x/extra") infoExtraPR (by rfl) (by rfl)
  have hnew := h.2.2.2 (mainPhase stTwoSources) prOne ("x/extra") infoExtraPR
    (by rfl) (by rfl)
  exact ⟨hmain.1, hmain.2, hfirst, hnew.1, hnew.2⟩

/-- Witness for C4 on the all-failing repository state: the builder
still returns, with the empty mapping, and each failing step is a
no-op. -/
theorem C4_builder_total_witness :
    get_existing_eval_results stAllErr = [] ∧
    processMainFile stAllErr [] (".eval_results/a.yaml") = [] ∧
    processPR stAllErr [] prOne = [] := by
  have h := C4_builder_total stAllErr
  exact ⟨h.2.2.2.2.2 ("down") ("down") rfl rfl,
         h.2.2.1 ("down") (".eval_results/a.yaml") [] rfl,
         h.2.2.2.1 ("down") prOne [] rfl⟩

/-- Witness for C5 on a run whose commit step fails (the submitter
re-raises): the staged file and the staging directory still get
deletion attempts, and the outcome is the body's outcome. -/
theorem C5_cleanup_always_attempted_witness :
    SEvent.removeAttempt ("outputs/temp_u_m/gsm8k.yaml") ∈
      (create_eval_results_pr envCommitFail ("u/m") [recGsmA] false).2 ∧
    SEvent.rmdirAttempt (tempDirOf ("u/m")) ∈
      (create_eval_results_pr envCommitFail ("u/m") [recGsmA] false).2 ∧
    (create_eval_results_pr envCommitFail ("u/m") [recGsmA] false).1 =
      (submitBody envCommitFail ("u/m")
        (survivingResults envCommitFail [recGsmA] false)).1 := by
  have h := C5_cleanup_always_attempted envCommitFail ("u/m") [recGsmA] false
    (by decide) (by decide) rfl
  exact ⟨h.1 ("outputs/temp_u_m/gsm8k.yaml") (by decide), h.2.1, h.2.2⟩

/-- C10: the artifact filename stem is not injective on benchmark
identities: the distinct ids `a/gsm8k` and `b/GSM8K` get the same stem
in both writers, so in `write_output` the second record's file
overwrites the first's (same path written twice, final content the
second record's), and in the submitter both staged files share one temp
path and the single created proposal carries two add-file operations
targeting the same repository path. -/
theorem C10_stem_collision :
    (("a/gsm8k" : String) == ("b/GSM8K" : String)) = false ∧
    dataset_name_hf ("a/gsm8k") = dataset_name_hf ("b/GSM8K") ∧
    dataset_name_main ("a/gsm8k") = dataset_name_main ("b/GSM8K") ∧
    write_output ("u/m") [recGsmA, recGsmB] =
      [WEvent.mkdirOutput ("outputs/u__m"),
       WEvent.fileWrite ("outputs/u__m/gsm8k.yaml") (yamlDumpArtifact recGsmA),
       WEvent.fileWrite ("outputs/u__m/gsm8k.yaml") (yamlDumpArtifact recGsmB),
       WEvent.logWritten [("outputs/u__m/gsm8k.yaml"), ("outputs/u__m/gsm8k.yaml")]] ∧
    applyFS (write_output ("u/m") [recGsmA, recGsmB]) ("outputs/u__m/gsm8k.yaml") =
      some (yamlDumpArtifact recGsmB) ∧
    (submitBody envAllOk ("u/m") [recGsmA, recGsmB]).2.1.temp_files =
      [("outputs/temp_u_m/gsm8k.yaml"), ("outputs/temp_u_m/gsm8k.yaml")] ∧
    (commitOpsOf (create_eval_results_pr envAllOk ("u/m") [recGsmA, recGsmB] false).2).map
        CommitOp.path_in_repo =
      [(".eval_results/gsm8k.yaml"), (".eval_results/gsm8k.yaml")] ∧
    List.countP isCommitCreate
      (create_eval_results_pr envAllOk ("u/m") [recGsmA, recGsmB] false).2 = 1 := by
  exact ⟨by decide, rfl, rfl, rfl, rfl, rfl, rfl, rfl⟩
